import Mathlib

/-!
Verification of the tariff resolution engine of the hass-tarif-edf
repository (custom_components/tarif_edf/coordinator.py), by a shallow
embedding of its functions into Lean.

Modelling conventions:
* Clock times are natural numbers of minutes since midnight; the Python
  `datetime.time` order on HH:MM values is the natural order on these
  numbers.
* Calendar dates are encoded as `y * 10000 + m * 100 + d`, an
  order-preserving encoding of the lexicographic (year, month, day)
  order used by Python `date` comparison.
* Python dictionaries holding string fields are embedded as association
  lists `List (String × String)` with first-match lookup; the engine
  result dictionary is embedded as a structure with one typed field per
  key, where `Option (Option _)` distinguishes an absent key (`none`)
  from a key holding Python `None` (`some none`).
* Monetary values are rationals; no claim depends on binary floating
  point rounding, only on which fields are produced and carried.
* Network calls are embedded as explicit outcome arguments
  (`FetchRes` / `TableFetch`); Python exceptions become `Except` results.
-/

/-- Numeric value of a digit character. -/
def charVal (c : Char) : Nat := c.toNat - 48

/-- Whitespace as Python `str.strip` removes it (the ASCII part). -/
def isPySpace (c : Char) : Bool :=
  c = ' ' || c = '\t' || c = '\n' || c = '\r' ||
  c = Char.ofNat 11 || c = Char.ofNat 12

/-- Embedding of Python `str.strip()`. -/
def pyStrip (s : String) : String :=
  String.mk (((s.toList.dropWhile isPySpace).reverse.dropWhile isPySpace).reverse)

/-- Split a character list on a separator character, keeping empty
pieces, as Python `str.split` with an explicit separator does. -/
def splitOnChar (sep : Char) : List Char → List (List Char)
  | [] => [[]]
  | c :: r =>
      match splitOnChar sep r with
      | [] => if c = sep then [[], []] else [[c]]
      | h :: t => if c = sep then [] :: h :: t else (c :: h) :: t

/-- Embedding of Python `str.split(sep)` for a one-character separator. -/
def pySplit (sep : Char) (s : String) : List String :=
  (splitOnChar sep s.toList).map String.mk

/-- Embedding of the `value.replace(",", ".")` call of `parse_price`. -/
def pyReplaceComma (s : String) : String :=
  String.mk (s.toList.map fun c => if c = ',' then '.' else c)

/-- Split an hour token as matched by the CPython strptime pattern for
the directive H, namely 2[0-3], [0-1] then a digit, or a single digit:
a two-digit value 0 to 23, else one digit. Backtracking into the
one-digit alternative after a successful two-digit match cannot help,
because the following literal would have to equal a digit, so the
longest-first rule below is equivalent to the regex semantics. -/
def splitHour : List Char → Option (Nat × List Char)
  | a :: b :: r =>
      if a.isDigit && b.isDigit && 10 * charVal a + charVal b ≤ 23 then
        some (10 * charVal a + charVal b, r)
      else if a.isDigit then some (charVal a, b :: r) else none
  | [a] => if a.isDigit then some (charVal a, []) else none
  | [] => none

/-- Split a minute token as matched by the CPython strptime pattern for
the directive M, namely [0-5] then a digit, or a single digit. -/
def splitMinute : List Char → Option (Nat × List Char)
  | a :: b :: r =>
      if a.isDigit && b.isDigit && 10 * charVal a + charVal b ≤ 59 then
        some (10 * charVal a + charVal b, r)
      else if a.isDigit then some (charVal a, b :: r) else none
  | [a] => if a.isDigit then some (charVal a, []) else none
  | [] => none

/-- Embedding of `str_to_time`: CPython
`datetime.strptime(s, "%H:%M").time()` returning minutes since
midnight, `none` on a `ValueError` (no prefix match, or unconverted
trailing text). -/
def str_to_time (s : String) : Option Nat :=
  match splitHour s.toList with
  | some (h, ':' :: r) =>
      match splitMinute r with
      | some (m, []) => some (h * 60 + m)
      | _ => none
  | _ => none

/-- Embedding of `time_in_between`: midnight-aware membership of `now`
in the clock interval from `start` to `endt`. -/
def time_in_between (now start endt : Nat) : Bool :=
  if start ≤ endt then decide (start ≤ now ∧ now < endt)
  else decide (start ≤ now ∨ now < endt)

/-- Gregorian leap year test, as Python `datetime` uses. -/
def isLeap (y : Nat) : Bool := y % 4 = 0 && (y % 100 ≠ 0 || y % 400 = 0)

/-- Number of days of month `m` of year `y`. -/
def daysInMonth (y m : Nat) : Nat :=
  if m = 2 then (if isLeap y then 29 else 28)
  else if m = 4 || m = 6 || m = 9 || m = 11 then 30
  else 31

/-- Order-preserving encoding of a calendar date. -/
def dateKey (y m d : Nat) : Nat := y * 10000 + m * 100 + d

/-- Split a day token as matched by the CPython strptime pattern for
the directive d, namely 3[01], [12] then a digit, 0[1-9], or [1-9]:
a two-digit value 1 to 31, else one digit 1 to 9. -/
def splitDay : List Char → Option (Nat × List Char)
  | a :: b :: r =>
      if a.isDigit && b.isDigit && 1 ≤ 10 * charVal a + charVal b
          && 10 * charVal a + charVal b ≤ 31 then
        some (10 * charVal a + charVal b, r)
      else if a.isDigit && 1 ≤ charVal a then some (charVal a, b :: r) else none
  | [a] => if a.isDigit && 1 ≤ charVal a then some (charVal a, []) else none
  | [] => none

/-- Split a month token as matched by the CPython strptime pattern for
the directive m, namely 1[0-2], 0[1-9], or [1-9]: a two-digit value
1 to 12, else one digit 1 to 9. -/
def splitMonth : List Char → Option (Nat × List Char)
  | a :: b :: r =>
      if a.isDigit && b.isDigit && 1 ≤ 10 * charVal a + charVal b
          && 10 * charVal a + charVal b ≤ 12 then
        some (10 * charVal a + charVal b, r)
      else if a.isDigit && 1 ≤ charVal a then some (charVal a, b :: r) else none
  | [a] => if a.isDigit && 1 ≤ charVal a then some (charVal a, []) else none
  | [] => none

/-- Split a year token as matched by the CPython strptime pattern for
the directive Y: exactly four digits. -/
def splitYear : List Char → Option (Nat × List Char)
  | a :: b :: c :: d :: r =>
      if a.isDigit && b.isDigit && c.isDigit && d.isDigit then
        some (1000 * charVal a + 100 * charVal b + 10 * charVal c + charVal d, r)
      else none
  | _ => none

/-- Embedding of `str_to_date`: CPython
`datetime.strptime(s, "%d/%m/%Y").date()` returning the encoded date,
`none` on a `ValueError` (pattern failure, trailing text, year zero, or
a day beyond the length of the month). -/
def str_to_date (s : String) : Option Nat :=
  match splitDay s.toList with
  | some (d, '/' :: r1) =>
      match splitMonth r1 with
      | some (m, '/' :: r2) =>
          match splitYear r2 with
          | some (y, []) =>
              if 1 ≤ y && d ≤ daysInMonth y m then some (dateKey y m d) else none
          | _ => none
      | _ => none
  | _ => none

/-! Tariff table rows and the selection loop of `_parse_tariff_csv`. -/

/-- A CSV row as produced by `csv.DictReader`: an association list from
column names to string values. -/
abbrev Row := List (String × String)

/-- Embedding of Python `row.get(k, d)` on a row dictionary. -/
def rowGet (row : Row) (k d : String) : String :=
  match row.lookup k with
  | some v => v
  | none => d

/-- Power field of a row: `row.get("P_SOUSCRITE", row.get("PUISSANCE", ""))`
stripped of surrounding whitespace. -/
def rowPower (row : Row) : String :=
  pyStrip (match row.lookup "P_SOUSCRITE" with
   | some v => v
   | none => rowGet row "PUISSANCE" "")

/-- Candidacy of a row inside the selection loop of `_parse_tariff_csv`:
the row survives every `continue` (empty start date, wrong power, parse
failure, start date after today, expired end date). -/
def rowCand (row : Row) (power : String) (today : Nat) : Bool :=
  let dd := pyStrip (rowGet row "DATE_DEBUT" "")
  if dd = "" || rowPower row ≠ power then false
  else
    match str_to_date dd with
    | none => false
    | some start =>
        if today < start then false
        else
          let df := pyStrip (rowGet row "DATE_FIN" "")
          if df = "" then true
          else
            match str_to_date df with
            | none => false
            | some e => decide (¬ e < today)

/-- Start date of a row as used for the best-row comparison; only
evaluated on candidate rows, where the parse succeeds. -/
def rowKey (row : Row) : Nat :=
  (str_to_date (pyStrip (rowGet row "DATE_DEBUT" ""))).getD 0

/-- One iteration of the selection loop: keep the running best pair of
start date and row, replacing it exactly when the new row is a
candidate and `best_date is None or start_date > best_date`. -/
def selStep (power : String) (today : Nat) (best : Option (Nat × Row))
    (row : Row) : Option (Nat × Row) :=
  if rowCand row power today then
    match best with
    | none => some (rowKey row, row)
    | some (bd, br) =>
        if bd < rowKey row then some (rowKey row, row) else some (bd, br)
  else best

/-- Row-selection part of `_parse_tariff_csv`: the loop over the parsed
rows returning `best_match`. -/
def parse_tariff_select (rows : List Row) (power : String) (today : Nat) :
    Option Row :=
  (rows.foldl (selStep power today) none).map Prod.snd

/-- Step of the selection stated over candidates only (the filter has
been applied), used to relate the loop to its specification. -/
def selStepC (best : Option (Nat × Row)) (row : Row) : Option (Nat × Row) :=
  match best with
  | none => some (rowKey row, row)
  | some (bd, br) =>
      if bd < rowKey row then some (rowKey row, row) else some (bd, br)

/-- Specification-side selector, following the words of the claim with
the amended tie-break: among candidate rows, the one with the latest
start date, the first encountered winning among rows with equal start
dates. -/
def specSelectFirstMax (rows : List Row) (power : String) (today : Nat) :
    Option Row :=
  match rows.filter (fun r => rowCand r power today) with
  | [] => none
  | c :: cs => some (cs.foldl (fun b r => if rowKey b < rowKey r then r else b) c)

/-! Off-peak schedule entries: the validation pattern and the scan loop
of the tariff step of `_async_update_data`. -/

/-- Possible remainders after the hour alternation of the source
pattern, namely [0-1]?[0-9] or 2[0-3]: either a two-digit form with
first digit 0 or 1, or the form 2 followed by 0 to 3, or a single
digit. All regex-backtracking possibilities are collected. -/
def hourRests : List Char → List (List Char)
  | a :: b :: r =>
      (if (('0' ≤ a && a ≤ '1') && b.isDigit) || (a = '2' && ('0' ≤ b && b ≤ '3'))
       then [r] else [])
      ++ (if a.isDigit then [b :: r] else [])
  | [a] => if a.isDigit then [[]] else []
  | [] => []

/-- Consume a colon and a minute part [0-5][0-9]. -/
def minuteAfterColon : List Char → Option (List Char)
  | ':' :: m1 :: m2 :: rest =>
      if ('0' ≤ m1 && m1 ≤ '5') && m2.isDigit then some rest else none
  | _ => none

/-- Possible remainders after one clock component of the source
pattern, hour alternation then colon then minutes. -/
def clockRests (l : List Char) : List (List Char) :=
  (hourRests l).filterMap minuteAfterColon

/-- Embedding of the source validation
`re.match(r"([0-1]?[0-9]|2[0-3]):[0-5][0-9]-([0-1]?[0-9]|2[0-3]):[0-5][0-9]", s)`:
a prefix of `s` matches two clock components joined by a dash; trailing
characters are allowed because `re.match` only anchors at the start. -/
def offpeakPattern (s : String) : Bool :=
  (clockRests s.toList).any fun r =>
    match r with
    | '-' :: r2 => !(clockRests r2).isEmpty
    | _ => false

/-- Strict range format following the words of the claim: exactly
HH:MM-HH:MM with two-digit hours 00 to 23 and two-digit minutes 00
to 59, the whole entry and nothing more. -/
def strictRangeFormat (s : String) : Bool :=
  match s.toList with
  | [h1, h2, ':', m1, m2, '-', h3, h4, ':', m3, m4] =>
      ((h1.isDigit && h2.isDigit && 10 * charVal h1 + charVal h2 ≤ 23) &&
       (m1.isDigit && m2.isDigit && 10 * charVal m1 + charVal m2 ≤ 59)) &&
      ((h3.isDigit && h4.isDigit && 10 * charVal h3 + charVal h4 ≤ 23) &&
       (m3.isDigit && m4.isDigit && 10 * charVal m3 + charVal m4 ≤ 59))
  | _ => false

/-- Times of a schedule entry as the loop would compute them: the entry
is stripped, must pass the validation pattern, and its two parts around
the dash must both parse with `str_to_time`. -/
def entryTimes (e : String) : Option (Nat × Nat) :=
  let t := pyStrip e
  if offpeakPattern t then
    match str_to_time ((pySplit '-' t).getD 0 ""),
          str_to_time ((pySplit '-' t).getD 1 "") with
    | some a, some b => some (a, b)
    | _, _ => none
  else none

/-- The scan over schedule entries: skip entries failing the pattern,
abort with the `ValueError` of `strptime` when an accepted entry has an
unparsable time part, stop at the first entry whose range contains
`now`. -/
def offPeakScan (now : Nat) : List String → Except Unit Bool
  | [] => .ok false
  | e :: rest =>
      let t := pyStrip e
      if offpeakPattern t then
        match str_to_time ((pySplit '-' t).getD 0 ""),
              str_to_time ((pySplit '-' t).getD 1 "") with
        | some a, some b =>
            if time_in_between now a b then .ok true else offPeakScan now rest
        | _, _ => .error ()
      else offPeakScan now rest

/-- Peak or off-peak determination for hphc and tempo contracts: start
from the peak rate read from the result dictionary, run the scan over
the comma-separated schedule when one is configured and non-empty, and
switch to the off-peak rate on a hit. Returns the pair written to
`tarif_actuel_ttc` and `is_off_peak`. -/
def hphc_tempo_tarif (hp hc : Option ℚ) (ranges : Option String) (now : Nat) :
    Except Unit (Option ℚ × Bool) :=
  match ranges with
  | none => .ok (hp, false)
  | some s =>
      if s = "" then .ok (hp, false)
      else
        match offPeakScan now (pySplit ',' s) with
        | .ok true => .ok (hc, true)
        | .ok false => .ok (hp, false)
        | .error e => .error e

/-! Tempo color records, the in-memory cache and `get_tempo_day`. -/

/-- A tempo day record as held in `self.tempo_prices`: the two JSON
fields the code reads, each possibly absent. -/
structure TempoRec where
  dateJour : Option String
  codeJour : Option Int
  deriving DecidableEq, Repr

/-- Embedding of `price.get("codeJour", 0)`. -/
def recCode (r : TempoRec) : Int := r.codeJour.getD 0

/-- Body of the external color API answer: either not a JSON object, or
an object with the two relevant fields each possibly missing. -/
inductive ApiResponse where
  | notDict
  | obj (codeJour : Option Int) (dateJour : Option String)
  deriving DecidableEq

/-- Outcome of the network fetch inside `get_tempo_day`: a parsed
answer, an `aiohttp.ClientError`, or any other exception. -/
inductive FetchRes where
  | ok (r : ApiResponse)
  | clientErr
  | otherErr
  deriving DecidableEq

/-- Cache scan of `get_tempo_day`: the first record whose date matches
and whose code is a known color, or unknown while the clock is still
before the availability cutoff. Records failing the condition are
passed over and the loop continues. -/
def cacheLookup (cache : List TempoRec) (dateStr : String)
    (now checkLimit : Nat) : Option TempoRec :=
  cache.find? fun p =>
    p.dateJour == some dateStr &&
      (recCode p == 1 || recCode p == 2 || recCode p == 3 ||
       (recCode p == 0 && decide (now < checkLimit)))

/-- Validation of a fetched answer: a non-object or an object missing
`codeJour` is replaced by a synthesized unknown record; a missing
`dateJour` is filled in with the requested date. -/
def resolveResponse (dateStr : String) (r : ApiResponse) : TempoRec :=
  match r with
  | .notDict => ⟨some dateStr, some 0⟩
  | .obj none _ => ⟨some dateStr, some 0⟩
  | .obj (some c) dj =>
      ⟨some (match dj with | none => dateStr | some s => s), some c⟩

/-- Embedding of `get_tempo_day`: consult the cache, otherwise resolve
the fetch outcome; a completed fetch is validated and appended to the
cache, while a `ClientError` or unexpected error yields a synthesized
unknown record returned without caching. Returns the record and the
new cache. -/
def get_tempo_day (cache : List TempoRec) (dateStr : String)
    (now checkLimit : Nat) (fetch : FetchRes) : TempoRec × List TempoRec :=
  match cacheLookup cache dateStr now checkLimit with
  | some p => (p, cache)
  | none =>
      match fetch with
      | .ok r =>
          let rec0 := resolveResponse dateStr r
          (rec0, cache ++ [rec0])
      | .clientErr => (⟨some dateStr, some 0⟩, cache)
      | .otherErr => (⟨some dateStr, some 0⟩, cache)

/-! Tempo color names. -/

/-- Embedding of `get_tempo_color_from_code`, with the mapping
TEMPO_COLORS_MAPPING. Modelled from the spec: the constant lives in
`const.py`, which is not part of the sources; the glossary gives
0=unknown, 1=blue, 2=white, 3=red, and the rate keys built from these
names in the coordinator use the French names bleu, blanc, rouge. -/
def get_tempo_color_from_code (c : Int) : String :=
  if c = 1 then "bleu" else if c = 2 then "blanc" else if c = 3 then "rouge"
  else "indéterminé"

/-- Embedding of `_get_color_code_from_name`: scan the mapping for the
name, defaulting to 0. -/
def get_color_code_from_name (n : String) : Int :=
  if n = "bleu" then 1 else if n = "blanc" then 2 else if n = "rouge" then 3
  else 0

/-! Price extraction of `_parse_tariff_csv`. -/

/-- Value of a digit list in base ten. -/
def digitsVal (l : List Char) : Option Nat :=
  if l ≠ [] && l.all Char.isDigit then
    some (l.foldl (fun a c => a * 10 + charVal c) 0)
  else none

/-- Fractional digits as a rational in the unit interval. -/
def fracVal (l : List Char) : Option ℚ :=
  if l.all Char.isDigit then
    some ((l.foldl (fun a c => a * 10 + charVal c) 0 : ℚ) / (10 : ℚ) ^ l.length)
  else none

/-- Embedding of the Python builtin `float` on the decimal literals the
tariff tables use: an optional sign, then digits with an optional dot
and fraction, or a dot with fraction digits. Exotic accepted forms
(exponents, infinities, embedded underscores, surrounding whitespace)
are outside the table format and left unrecognised; no claim depends on
them. -/
def pyFloat (s : String) : Option ℚ :=
  let l := s.toList
  let signed : ℚ × List Char :=
    match l with
    | '-' :: r => (-1, r)
    | '+' :: r => (1, r)
    | _ => (1, l)
  let body := signed.2
  match splitOnChar '.' body with
  | [ip] => (digitsVal ip).map (fun n => signed.1 * n)
  | [ip, fp] =>
      if ip = [] && fp = [] then none
      else if ip.all Char.isDigit && fp.all Char.isDigit then
        match fracVal fp with
        | some f => some (signed.1 * ((ip.foldl (fun a c => a * 10 + charVal c) 0 : ℚ) + f))
        | none => none
      else none
  | _ => none

/-- Embedding of the inner `parse_price`: the empty string is zero,
otherwise the decimal comma is replaced by a dot and the result parsed
as a float; `none` is the `ValueError` of `float`, which propagates out
of `_parse_tariff_csv`. -/
def parse_price (v : String) : Option ℚ :=
  if v = "" then some 0 else pyFloat (pyReplaceComma v)

/-- Price of a designated column of the winning row, with the default
string "0" for a missing column. -/
def priceOf (row : Row) (col : String) : Option ℚ :=
  parse_price (rowGet row col "0")

/-- Rate fields built from the winning row, per contract type, in the
insertion order of the source; the annual fixed fee is divided by
twelve for the derived subscription field. An unknown contract type
produces the empty mapping. Failure is the `ValueError` of `float`. -/
def extractRates (ctype : String) (row : Row) : Option (List (String × ℚ)) :=
  if ctype = "base" then
    match priceOf row "PART_FIXE_TTC", priceOf row "PART_VARIABLE_TTC" with
    | some f, some v =>
        some [("base_fixe_ttc", f), ("base_variable_ttc", v),
              ("base_abonnement_ttc", f / 12)]
    | _, _ => none
  else if ctype = "hphc" then
    match priceOf row "PART_FIXE_TTC", priceOf row "PART_VARIABLE_HC_TTC",
          priceOf row "PART_VARIABLE_HP_TTC" with
    | some f, some hc, some hp =>
        some [("hphc_fixe_ttc", f), ("hphc_variable_hc_ttc", hc),
              ("hphc_variable_hp_ttc", hp), ("hphc_abonnement_ttc", f / 12)]
    | _, _, _ => none
  else if ctype = "tempo" then
    match priceOf row "PART_FIXE_TTC",
          priceOf row "PART_VARIABLE_HCBleu_TTC",
          priceOf row "PART_VARIABLE_HPBleu_TTC",
          priceOf row "PART_VARIABLE_HCBlanc_TTC",
          priceOf row "PART_VARIABLE_HPBlanc_TTC",
          priceOf row "PART_VARIABLE_HCRouge_TTC",
          priceOf row "PART_VARIABLE_HPRouge_TTC" with
    | some f, some hcb, some hpb, some hcw, some hpw, some hcr, some hpr =>
        some [("tempo_fixe_ttc", f),
              ("tempo_variable_hc_bleu_ttc", hcb),
              ("tempo_variable_hp_bleu_ttc", hpb),
              ("tempo_variable_hc_blanc_ttc", hcw),
              ("tempo_variable_hp_blanc_ttc", hpw),
              ("tempo_variable_hc_rouge_ttc", hcr),
              ("tempo_variable_hp_rouge_ttc", hpr),
              ("tempo_abonnement_ttc", f / 12)]
    | _, _, _, _, _, _, _ => none
  else some []

/-- Embedding of `_parse_tariff_csv` on already-decoded rows: select
the best row, then extract the rates; `Except.error` is a price
`ValueError` escaping the function, `Except.ok none` the no-match
result. -/
def parse_tariff_csv (rows : List Row) (power ctype : String) (today : Nat) :
    Except Unit (Option (List (String × ℚ))) :=
  match parse_tariff_select rows power today with
  | none => .ok none
  | some row =>
      match extractRates ctype row with
      | none => .error ()
      | some r => .ok (some r)

/-! The engine state: one typed field per result-dictionary key the
claims touch, plus the two instance attributes and the tempo cache. -/

/-- Embedding of the coordinator state: the persistent fields of
`self.data` (typed per key, `Option (Option _)` separating an absent
key from a key holding `None`), the two `_previous_demain` instance
attributes, and the `tempo_prices` cache. -/
structure EngineState where
  lastRefreshAt : Option Nat := none
  rates : List (String × ℚ) := []
  tarifActuel : Option (Option ℚ) := some none
  isOffPeak : Option Bool := none
  tempoCouleur : Option String := none
  tempoCouleurHier : Option String := none
  tempoCouleurAujourdhui : Option String := none
  tempoCouleurDemain : Option String := none
  tempoHpTtc : Option (Option ℚ) := none
  tempoHcTtc : Option (Option ℚ) := none
  fallbackColor : Option String := none
  fallbackDate : Option String := none
  prevDemainColor : Option String := none
  prevDemainDate : Option String := none
  tempoPrices : List TempoRec := []
  deriving DecidableEq, Repr

/-- Overwrite or append one key of an association list, as assignment
into a Python dictionary. -/
def assocSet : List (String × ℚ) → String → ℚ → List (String × ℚ)
  | [], k, v => [(k, v)]
  | (k0, v0) :: r, k, v =>
      if k0 = k then (k, v) :: r else (k0, v0) :: assocSet r k v

/-- Embedding of `dict.update`: fold the new bindings over the base. -/
def assocUpdate (base new : List (String × ℚ)) : List (String × ℚ) :=
  new.foldl (fun b kv => assocSet b kv.1 kv.2) base

/-- Freshness test of the cycle:
`last_refresh_at is None or last_refresh_at < fresh_data_limit`. -/
def tarifNeedsUpdate (st : EngineState) (freshLimit : Nat) : Bool :=
  match st.lastRefreshAt with
  | none => true
  | some t => decide (t < freshLimit)

/-- Outcome of the tariff table download: a transport error, any other
unexpected error (an undecodable body included), or decoded rows. -/
inductive TableFetch where
  | transportErr
  | unexpectedErr
  | ok (rows : List Row)
  deriving DecidableEq

/-- Table refresh step of `_async_update_data`: nothing happens when
the table is fresh; with a refresh due, an unknown contract type raises
`UpdateFailed` before any fetch, fetch or parse errors raise
`UpdateFailed` with no field written, a fetched table with no matching
row leaves the state untouched without error, and a match merges the
rates and stamps `last_refresh_at`. -/
def refreshStep (st : EngineState) (ctype power : String)
    (freshLimit now today : Nat) (fetch : TableFetch) :
    Except String EngineState :=
  if !tarifNeedsUpdate st freshLimit then .ok st
  else if ctype ≠ "base" && ctype ≠ "hphc" && ctype ≠ "tempo" then
    .error ("Unknown contract type: " ++ ctype)
  else
    match fetch with
    | .transportErr => .error "Error fetching tariff data"
    | .unexpectedErr => .error "Unexpected error"
    | .ok rows =>
        match parse_tariff_csv rows power ctype today with
        | .error _ => .error "Unexpected error"
        | .ok none => .ok st
        | .ok (some rates) =>
            if rates = [] then .ok st
            else .ok { st with rates := assocUpdate st.rates rates,
                               lastRefreshAt := some now }

/-! Tempo continuity and current color. -/

/-- Durable-snapshot half of the continuity fallback: the stored
fallback color is used when it exists and its tagged date equals the
current day. -/
def contSnap (t today : String) (fbC fbD : Option String) : String :=
  match fbC with
  | some c => if fbD = some today then c else t
  | none => t

/-- Embedding of the continuity resolution: an unknown today color is
replaced by the in-memory previous-cycle tomorrow value when that value
exists, is known, and its tagged date equals today; otherwise by the
durable snapshot value when it exists and its tagged date equals today;
otherwise it stays unknown. -/
def continuityResolve (t today : String)
    (prevC prevD fbC fbD : Option String) : String :=
  if t = "indéterminé" then
    match prevC with
    | some c =>
        if prevD = some today && c ≠ "indéterminé" then c
        else contSnap t today fbC fbD
    | none => contSnap t today fbC fbD
  else t

/-- Storage half of the continuity logic: a known freshly-fetched
tomorrow color is recorded, tagged with the tomorrow date, in the two
instance attributes and the two snapshot fields. -/
def storeFallback (st : EngineState) (tmColor tmStr : String) : EngineState :=
  if tmColor ≠ "indéterminé" then
    { st with prevDemainColor := some tmColor, prevDemainDate := some tmStr,
              fallbackColor := some tmColor, fallbackDate := some tmStr }
  else st

/-- Key of the peak rate of a color. -/
def hpKeyOf (c : String) : String := "tempo_variable_hp_" ++ c ++ "_ttc"

/-- Key of the off-peak rate of a color. -/
def hcKeyOf (c : String) : String := "tempo_variable_hc_" ++ c ++ "_ttc"

/-- Current color step of the tempo branch: the effective color code is
computed from the post-fallback today color at or after the day-start
cutoff and from the fetched yesterday record before it; a known code
sets `tempo_couleur` and, when both color-specific keys are present,
copies their rates into the active pair; an unknown code sets
`tempo_couleur` to indéterminé and installs `None` in either active
rate only when its key was never set. The effective code is taken from
the post-fallback today color at or after the day-start cutoff and
from the fetched yesterday record before it. -/
def effectiveCode (nowTime dayStart : Nat) (todayColor : String)
    (yesterdayCode : Int) : Int :=
  if dayStart ≤ nowTime then get_color_code_from_name todayColor
  else yesterdayCode

/-- Branch on the effective code: the body of the current color step. -/
def applyCurrentColor (st : EngineState) (code : Int) : EngineState :=
  if code = 1 || code = 2 || code = 3 then
    let color := get_tempo_color_from_code code
    let st1 := { st with tempoCouleur := some color }
    match st.rates.lookup (hpKeyOf color), st.rates.lookup (hcKeyOf color) with
    | some hp, some hc =>
        { st1 with tempoHpTtc := some (some hp), tempoHcTtc := some (some hc) }
    | _, _ => st1
  else
    let st1 := { st with tempoCouleur := some "indéterminé" }
    let st2 :=
      if st1.tempoHpTtc = none then { st1 with tempoHpTtc := some none } else st1
    if st2.tempoHcTtc = none then { st2 with tempoHcTtc := some none } else st2

/-- Current color step of the tempo branch: compute the effective code
and apply its branch. -/
def currentColorStep (st : EngineState) (nowTime dayStart : Nat)
    (todayColor : String) (yesterdayCode : Int) : EngineState :=
  applyCurrentColor st (effectiveCode nowTime dayStart todayColor yesterdayCode)

/-- Tempo branch of `_async_update_data`: fetch the three day records
through the cache, resolve the continuity fallback for today, store the
tomorrow fallback, and run the current-color step. The surrounding
`except` clause of the source is unreachable here because
`get_tempo_day` is total. -/
def tempoStep (st : EngineState) (nowTime checkLimit dayStart : Nat)
    (todayStr yStr tmStr : String) (fy ft ftm : FetchRes) : EngineState :=
  let py := get_tempo_day st.tempoPrices yStr nowTime checkLimit fy
  let pt := get_tempo_day py.2 todayStr nowTime checkLimit ft
  let ptm := get_tempo_day pt.2 tmStr nowTime checkLimit ftm
  let yColor := get_tempo_color_from_code (recCode py.1)
  let tColor0 := get_tempo_color_from_code (recCode pt.1)
  let tmColor := get_tempo_color_from_code (recCode ptm.1)
  let st1 := { st with tempoPrices := ptm.2,
                       tempoCouleurHier := some yColor,
                       tempoCouleurDemain := some tmColor }
  let tColor := continuityResolve tColor0 todayStr
                  st.prevDemainColor st.prevDemainDate
                  st.fallbackColor st.fallbackDate
  let st2 := { st1 with tempoCouleurAujourdhui := some tColor }
  let st3 := storeFallback st2 tmColor tmStr
  currentColorStep st3 nowTime dayStart tColor (recCode py.1)

/-- Flatten the absent-or-null encoding as Python `dict.get` does. -/
def optJoin (x : Option (Option ℚ)) : Option ℚ := x.getD none

/-- Final tariff step of `_async_update_data`: base contracts take the
base variable rate and are never off-peak; hphc and tempo contracts run
the off-peak determination on their peak and off-peak rate pair; any
other contract type changes nothing. Failure is the strptime
`ValueError` escaping the loop. -/
def tarifStep (st : EngineState) (ctype : String) (ranges : Option String)
    (nowTime : Nat) : Except Unit EngineState :=
  if ctype = "base" then
    .ok { st with tarifActuel := some (st.rates.lookup "base_variable_ttc"),
                  isOffPeak := some false }
  else if ctype = "hphc" || ctype = "tempo" then
    let hp : Option ℚ :=
      if ctype = "hphc" then st.rates.lookup "hphc_variable_hp_ttc"
      else optJoin st.tempoHpTtc
    let hc : Option ℚ :=
      if ctype = "hphc" then st.rates.lookup "hphc_variable_hc_ttc"
      else optJoin st.tempoHcTtc
    match hphc_tempo_tarif hp hc ranges nowTime with
    | .ok (t, off) => .ok { st with tarifActuel := some t, isOffPeak := some off }
    | .error e => .error e
  else .ok st

/-- Embedding of one whole `_async_update_data` cycle: the refresh
step, then the tempo branch for tempo contracts, then the tariff step.
The off-peak schedule argument is the configured option after its
contract-type default has been applied. -/
def update_data (st : EngineState) (ctype power : String)
    (freshLimit now today : Nat) (tableFetch : TableFetch)
    (nowTime checkLimit dayStart : Nat) (todayStr yStr tmStr : String)
    (fy ft ftm : FetchRes) (ranges : Option String) :
    Except String EngineState :=
  match refreshStep st ctype power freshLimit now today tableFetch with
  | .error e => .error e
  | .ok st1 =>
      let st2 :=
        if ctype = "tempo" then
          tempoStep st1 nowTime checkLimit dayStart todayStr yStr tmStr fy ft ftm
        else st1
      match tarifStep st2 ctype ranges nowTime with
      | .error _ => .error "ValueError"
      | .ok st3 => .ok st3

/-- Hit test of one schedule entry, as the scan evaluates it: the entry
passes the validation pattern, both time parts parse, and the current
time lies in the range. -/
def entryHit (now : Nat) (e : String) : Bool :=
  match entryTimes e with
  | some p => time_in_between now p.1 p.2
  | none => false

/-- Concrete state with the blue tempo rate pair loaded, used to
instantiate theorems at explicit inputs. -/
def stBleu : EngineState :=
  { rates := [("tempo_variable_hp_bleu_ttc", (3 : ℚ)),
              ("tempo_variable_hc_bleu_ttc", (2 : ℚ))] }

/-- Concrete state whose table is fresh, used to instantiate theorems
at explicit inputs. -/
def stFresh : EngineState := { lastRefreshAt := some 100 }

/-! Theorems. Helper lemmas come first, then one theorem per claim. -/

theorem foldl_selStep_filter (power : String) (today : Nat)
    (rows : List Row) (best : Option (Nat × Row)) :
    rows.foldl (selStep power today) best
      = (rows.filter (fun r => rowCand r power today)).foldl selStepC best := by
  induction rows generalizing best with
  | nil => rfl
  | cons r rest ih =>
      by_cases h : rowCand r power today = true
      · simp [List.foldl, List.filter, h, selStep, selStepC, ih]
      · simp only [Bool.not_eq_true] at h
        simp [List.foldl, List.filter, h, selStep, ih]

theorem foldl_selStepC_max (cs : List Row) (c : Row) :
    List.foldl selStepC (some (rowKey c, c)) cs
      = some (rowKey (cs.foldl (fun b r => if rowKey b < rowKey r then r else b) c),
              cs.foldl (fun b r => if rowKey b < rowKey r then r else b) c) := by
  induction cs generalizing c with
  | nil => rfl
  | cons r rest ih =>
      by_cases h : rowKey c < rowKey r
      · simp only [List.foldl, selStepC, if_pos h]
        exact ih r
      · simp only [List.foldl, selStepC, if_neg h]
        exact ih c

/-- Claim C1, counterexample. Two rows of equal power and equal start
date, both candidates for the given current day, tie on the start
date; the selection keeps the row encountered first, not the last one
as the claim states: on the table below the resolver returns the first
row although the distinct second row ties it. -/
theorem tariff_select_tie_counterexample :
    parse_tariff_select
        [[("DATE_DEBUT", "01/01/2024"), ("PUISSANCE", "6"), ("ID", "a")],
         [("DATE_DEBUT", "01/01/2024"), ("PUISSANCE", "6"), ("ID", "b")]]
        "6" (dateKey 2024 6 15)
      = some [("DATE_DEBUT", "01/01/2024"), ("PUISSANCE", "6"), ("ID", "a")] ∧
    rowCand [("DATE_DEBUT", "01/01/2024"), ("PUISSANCE", "6"), ("ID", "b")]
        "6" (dateKey 2024 6 15) = true ∧
    rowKey [("DATE_DEBUT", "01/01/2024"), ("PUISSANCE", "6"), ("ID", "a")]
      = rowKey [("DATE_DEBUT", "01/01/2024"), ("PUISSANCE", "6"), ("ID", "b")] ∧
    ([("DATE_DEBUT", "01/01/2024"), ("PUISSANCE", "6"), ("ID", "a")] : Row)
      ≠ [("DATE_DEBUT", "01/01/2024"), ("PUISSANCE", "6"), ("ID", "b")] := by
  refine ⟨rfl, rfl, rfl, ?_⟩
  decide

/-- Claim C1, amended: a row is a candidate iff its start-date field is
non-empty, its power field (P_SOUSCRITE, else PUISSANCE) equals the
target power, its start date parses and is at most today, and its end
date is absent or parses to at least today; among candidates the row
with the latest start date is selected, with ties among equal start
dates broken by first-encountered-wins in file order. The selection
loop equals this specification selector on every table, power and
current day. -/
theorem tariff_select_first_max (rows : List Row) (power : String)
    (today : Nat) :
    parse_tariff_select rows power today = specSelectFirstMax rows power today := by
  unfold parse_tariff_select specSelectFirstMax
  rw [foldl_selStep_filter]
  cases h : rows.filter (fun r => rowCand r power today) with
  | nil => rfl
  | cons c cs =>
      have h0 : List.foldl selStepC (none : Option (Nat × Row)) (c :: cs)
          = List.foldl selStepC (some (rowKey c, c)) cs := rfl
      rw [h0, foldl_selStepC_max]
      rfl

/-- Claim C8: the midnight-aware interval test returns true iff
start ≤ now < end when start < end, and iff now ≥ start or now < end
when start > end. -/
theorem time_in_between_spec (now start endt : Nat) :
    (start < endt → (time_in_between now start endt = true ↔
        start ≤ now ∧ now < endt)) ∧
    (endt < start → (time_in_between now start endt = true ↔
        start ≤ now ∨ now < endt)) := by
  constructor
  · intro h
    unfold time_in_between
    rw [if_pos h.le]
    simp
  · intro h
    unfold time_in_between
    rw [if_neg (by omega)]
    simp

/-- Claim C8, witness at now 23:00, start 22:00, end 06:00. -/
theorem time_in_between_spec_witness :
    time_in_between 1380 1320 360 = true ↔ 1320 ≤ 1380 ∨ 1380 < 360 :=
  (time_in_between_spec 1380 1320 360).2 (by decide)

/-- Claim C10: with equal endpoints the interval test is false for
every clock time, and a schedule consisting of the entry 00:00-00:00
never marks off-peak and keeps the peak rate. -/
theorem time_in_between_empty_spec (now start : Nat) (hp hc : Option ℚ) :
    time_in_between now start start = false ∧
    hphc_tempo_tarif hp hc (some "00:00-00:00") now = .ok (hp, false) := by
  have h1 : ∀ a : Nat, time_in_between now a a = false := by
    intro a
    unfold time_in_between
    rw [if_pos le_rfl]
    simp
  refine ⟨h1 start, ?_⟩
  have h2 : offPeakScan now ["00:00-00:00"]
      = if time_in_between now 0 0 then Except.ok true else Except.ok false := rfl
  have h3 : hphc_tempo_tarif hp hc (some "00:00-00:00") now
      = (match offPeakScan now ["00:00-00:00"] with
         | .ok true => Except.ok (hc, true)
         | .ok false => Except.ok (hp, false)
         | .error e => Except.error e) := rfl
  rw [h3, h2, h1 0]
  simp

/-- Claim C10, witness at a concrete time. -/
theorem time_in_between_empty_spec_witness :
    time_in_between 125 125 125 = false :=
  (time_in_between_empty_spec 125 125 none none).1

theorem offPeakScan_ok_any (now : Nat) (l : List String) (b : Bool)
    (h : offPeakScan now l = .ok b) : b = l.any (entryHit now) := by
  induction l with
  | nil =>
      simp only [offPeakScan] at h
      cases h
      rfl
  | cons e rest ih =>
      by_cases hp : offpeakPattern (pyStrip e) = true
      · simp only [offPeakScan, hp, if_true] at h
        cases h1 : str_to_time ((pySplit '-' (pyStrip e)).getD 0 "") with
        | none =>
            rw [h1] at h
            simp at h
        | some a =>
            rw [h1] at h
            cases h2 : str_to_time ((pySplit '-' (pyStrip e)).getD 1 "") with
            | none => rw [h2] at h; simp at h
            | some b2 =>
                rw [h2] at h
                have het : entryTimes e = some (a, b2) := by
                  simp only [entryTimes, hp, if_true, h1, h2]
                by_cases hw : time_in_between now a b2 = true
                · simp only [hw, if_true] at h
                  cases h
                  have he : entryHit now e = true := by
                    simp only [entryHit, het, hw]
                  simp [List.any_cons, he]
                · simp only [hw, Bool.false_eq_true, if_false] at h
                  have hrest := ih h
                  have he : entryHit now e = false := by
                    simp only [entryHit, het]
                    simpa using hw
                  rw [List.any_cons, he, Bool.false_or]
                  exact hrest
      · simp only [Bool.not_eq_true] at hp
        simp only [offPeakScan, hp, Bool.false_eq_true, if_false] at h
        have hrest := ih h
        have het : entryTimes e = none := by
          simp only [entryTimes, hp, Bool.false_eq_true, if_false]
        have he : entryHit now e = false := by
          simp only [entryHit, het]
        rw [List.any_cons, he, Bool.false_or]
        exact hrest

/-- Claim C3, counterexample. The entry 2:00-6:00 fails the strict
HH:MM-HH:MM pattern (one-digit hours), so under the claim it would be
silently skipped and a 03:00 clock would stay on-peak with the peak
rate; the code accepts the entry, because the source pattern also
allows one-digit hours, and returns the off-peak rate with
`is_off_peak` true. -/
theorem offpeak_pattern_counterexample :
    strictRangeFormat "2:00-6:00" = false ∧
    hphc_tempo_tarif (some 1) (some 2) (some "2:00-6:00") 180
      = .ok (some 2, true) ∧
    (some (2 : ℚ), true) ≠ ((some (1 : ℚ), false) : Option ℚ × Bool) := by
  refine ⟨rfl, rfl, by decide⟩

/-- Claim C3, amended: each comma-separated entry failing the source
validation pattern, which matches only a prefix of the entry and also
accepts one-digit hours, is silently skipped; when the scan completes
without a strptime failure, the result is off-peak with the off-peak
rate iff the clock time falls within some accepted entry whose two
time parts parse, under the midnight-aware check and with the first
matching range winning, and otherwise on-peak with the peak rate. An
accepted entry whose time text does not fully parse aborts the cycle,
which the completion hypothesis excludes. -/
theorem offpeak_determination_spec (s : String) (now : Nat)
    (hp hc t : Option ℚ) (off : Bool)
    (h : hphc_tempo_tarif hp hc (some s) now = .ok (t, off)) :
    (off = true ↔ ∃ e ∈ pySplit ',' s, entryHit now e = true) ∧
    t = (if off then hc else hp) := by
  simp only [hphc_tempo_tarif] at h
  by_cases hs : s = ""
  · subst hs
    rw [if_pos rfl] at h
    cases h
    constructor
    · constructor
      · intro hfalse
        cases hfalse
      · intro hex
        obtain ⟨e, he, hhit⟩ := hex
        have hsp : pySplit ',' "" = [""] := rfl
        rw [hsp] at he
        simp at he
        subst he
        cases hhit
    · rfl
  · rw [if_neg hs] at h
    cases hscan : offPeakScan now (pySplit ',' s) with
    | error e => rw [hscan] at h; cases h
    | ok bb =>
        rw [hscan] at h
        have hb := offPeakScan_ok_any now (pySplit ',' s) bb hscan
        cases bb with
        | true =>
            cases h
            refine ⟨?_, rfl⟩
            simp only [true_iff]
            have := hb.symm
            rw [List.any_eq_true] at this
            simpa using this
        | false =>
            cases h
            refine ⟨?_, rfl⟩
            constructor
            · intro hfalse; cases hfalse
            · intro hex
              have : (pySplit ',' s).any (entryHit now) = true := by
                rw [List.any_eq_true]
                simpa using hex
              rw [← hb] at this
              cases this

/-- Claim C3, witness: schedule 22:00-06:00 at 23:00 is off-peak with
the off-peak rate. -/
theorem offpeak_determination_spec_witness :
    ((true : Bool) = true ↔ ∃ e ∈ pySplit ',' "22:00-06:00", entryHit 1380 e = true) ∧
    (some (2 : ℚ) : Option ℚ)
      = (if (true : Bool) = true then (some (2 : ℚ) : Option ℚ) else some 1) :=
  offpeak_determination_spec "22:00-06:00" 1380 (some 1) (some 2) (some 2) true rfl

/-- Claim C2: the effective code is taken from the post-fallback today
color at or after the day-start cutoff and from the fetched yesterday
record before it; a known effective code (1, 2 or 3) makes the current
color its color name and, when the matching color-specific rate pair is
present in the result, installs that pair as the active rates; an
unknown effective code sets the current color to indéterminé and keeps
the previous active rates, installing null only for a rate key never
set. -/
theorem tempo_current_color_spec (st : EngineState) (nowTime dayStart : Nat)
    (todayColor : String) (yCode code : Int)
    (hcode : code = effectiveCode nowTime dayStart todayColor yCode) :
    (currentColorStep st nowTime dayStart todayColor yCode
        = applyCurrentColor st code) ∧
    (∀ hp hc : ℚ, (code = 1 ∨ code = 2 ∨ code = 3) →
        st.rates.lookup (hpKeyOf (get_tempo_color_from_code code)) = some hp →
        st.rates.lookup (hcKeyOf (get_tempo_color_from_code code)) = some hc →
        (applyCurrentColor st code).tempoCouleur
            = some (get_tempo_color_from_code code) ∧
        (applyCurrentColor st code).tempoHpTtc = some (some hp) ∧
        (applyCurrentColor st code).tempoHcTtc = some (some hc)) ∧
    (¬(code = 1 ∨ code = 2 ∨ code = 3) →
        (applyCurrentColor st code).tempoCouleur = some "indéterminé" ∧
        (applyCurrentColor st code).tempoHpTtc
            = (if st.tempoHpTtc = none then some none else st.tempoHpTtc) ∧
        (applyCurrentColor st code).tempoHcTtc
            = (if st.tempoHcTtc = none then some none else st.tempoHcTtc)) := by
  refine ⟨by rw [hcode]; rfl, ?_, ?_⟩
  · intro hp hc hk h1 h2
    have hb : (code = 1 || code = 2 || code = 3) = true := by
      rcases hk with h | h | h <;> simp [h]
    unfold applyCurrentColor
    rw [if_pos (by exact_mod_cast hb)]
    simp [h1, h2]
  · intro hk
    push_neg at hk
    obtain ⟨hk1, hk2, hk3⟩ := hk
    unfold applyCurrentColor
    rw [if_neg (by simp [hk1, hk2, hk3])]
    by_cases h1 : st.tempoHpTtc = none <;> by_cases h2 : st.tempoHcTtc = none <;>
      simp [h1, h2]

/-- Claim C2, witness: effective color blue at a clock past the
day-start cutoff, with the blue pair loaded, sets the current color to
bleu and installs the blue rates. -/
theorem tempo_current_color_spec_witness :
    (applyCurrentColor stBleu 1).tempoCouleur = some "bleu" ∧
    (applyCurrentColor stBleu 1).tempoHpTtc = some (some 3) ∧
    (applyCurrentColor stBleu 1).tempoHcTtc = some (some 2) :=
  (tempo_current_color_spec stBleu 400 360 "bleu" 0 1 (by decide)).2.1
    3 2 (Or.inl rfl) rfl rfl

/-- Claim C4: an unknown fresh today color resolves to the in-memory
previous-cycle tomorrow value when that value is present, known, and
tagged with the current day; failing that, to the durable snapshot
value when present and tagged with the current day; failing both it
stays unknown. A known fresh tomorrow color is stored, tagged with the
tomorrow date, in both the in-memory fields and the snapshot fields. -/
theorem tempo_continuity_spec (today : String)
    (prevC prevD fbC fbD : Option String) (st : EngineState)
    (tmColor tmStr : String) :
    (∀ c, prevD = some today → prevC = some c → c ≠ "indéterminé" →
        continuityResolve "indéterminé" today prevC prevD fbC fbD = c) ∧
    (∀ c, prevD ≠ some today → fbC = some c → fbD = some today →
        continuityResolve "indéterminé" today prevC prevD fbC fbD = c) ∧
    (prevD ≠ some today → (fbC = none ∨ fbD ≠ some today) →
        continuityResolve "indéterminé" today prevC prevD fbC fbD
          = "indéterminé") ∧
    (tmColor ≠ "indéterminé" →
        (storeFallback st tmColor tmStr).prevDemainColor = some tmColor ∧
        (storeFallback st tmColor tmStr).prevDemainDate = some tmStr ∧
        (storeFallback st tmColor tmStr).fallbackColor = some tmColor ∧
        (storeFallback st tmColor tmStr).fallbackDate = some tmStr) := by
  refine ⟨?_, ?_, ?_, ?_⟩
  · intro c hd hc hne
    subst hc
    simp [continuityResolve, hd, hne]
  · intro c hd hc hfd
    subst hc
    cases prevC with
    | none => simp [continuityResolve, contSnap, hfd]
    | some p =>
        by_cases hp : p = "indéterminé"
        · simp [continuityResolve, contSnap, hd, hp, hfd]
        · simp [continuityResolve, contSnap, hd, hp, hfd]
  · intro hd hnf
    cases prevC with
    | none =>
        cases hnf with
        | inl h => simp [continuityResolve, contSnap, h]
        | inr h =>
            cases fbC with
            | none => simp [continuityResolve, contSnap]
            | some c => simp [continuityResolve, contSnap, h]
    | some p =>
        have hskip : ¬(prevD = some today ∧ p ≠ "indéterminé") := by
          intro hcontra
          exact hd hcontra.1
        cases hnf with
        | inl h =>
            subst h
            by_cases hp : p = "indéterminé" <;>
              simp [continuityResolve, contSnap, hd, hp]
        | inr h =>
            cases fbC with
            | none =>
                by_cases hp : p = "indéterminé" <;>
                  simp [continuityResolve, contSnap, hd, hp]
            | some c =>
                by_cases hp : p = "indéterminé" <;>
                  simp [continuityResolve, contSnap, hd, hp, h]
  · intro hne
    simp [storeFallback, hne]

/-- Claim C4, witness: tomorrow-color rouge stored by the previous
cycle for the current day rescues an unknown fresh today color. -/
theorem tempo_continuity_spec_witness :
    continuityResolve "indéterminé" "2024-06-15" (some "rouge")
        (some "2024-06-15") none none = "rouge" :=
  (tempo_continuity_spec "2024-06-15" (some "rouge") (some "2024-06-15")
      none none stBleu "bleu" "2024-06-16").1 "rouge" rfl rfl (by decide)

/-- Claim C5: the cache scan of `get_tempo_day` returns a cached record
exactly when some record for the queried date has a known color code or
an unknown code while the clock is before the availability cutoff; the
returned record is such a record and no fetch happens; and when every
record for the date carries code 0 and the clock is at or past the
cutoff, the scan fails and the fetch outcome is used. -/
theorem tempo_cache_lookup_spec (cache : List TempoRec) (ds : String)
    (now limit : Nat) (fetch : FetchRes) :
    (∀ p, cacheLookup cache ds now limit = some p →
        p ∈ cache ∧ p.dateJour = some ds ∧
        (recCode p = 1 ∨ recCode p = 2 ∨ recCode p = 3 ∨
         (recCode p = 0 ∧ now < limit)) ∧
        get_tempo_day cache ds now limit fetch = (p, cache)) ∧
    ((∃ p ∈ cache, p.dateJour = some ds ∧
        (recCode p = 1 ∨ recCode p = 2 ∨ recCode p = 3 ∨
         (recCode p = 0 ∧ now < limit))) →
        ∃ p, cacheLookup cache ds now limit = some p) ∧
    (limit ≤ now → (∀ p ∈ cache, p.dateJour = some ds → recCode p = 0) →
        cacheLookup cache ds now limit = none ∧
        (∀ r, fetch = .ok r →
            get_tempo_day cache ds now limit fetch
              = (resolveResponse ds r, cache ++ [resolveResponse ds r]))) := by
  refine ⟨?_, ?_, ?_⟩
  · intro p hfind
    have hp := List.find?_some hfind
    have hmem := List.mem_of_find?_eq_some hfind
    simp only [Bool.or_eq_true, Bool.and_eq_true, beq_iff_eq,
      decide_eq_true_eq] at hp
    refine ⟨hmem, hp.1, ?_, ?_⟩
    · rcases hp.2 with ((h | h) | h) | h
      · exact Or.inl h
      · exact Or.inr (Or.inl h)
      · exact Or.inr (Or.inr (Or.inl h))
      · exact Or.inr (Or.inr (Or.inr h))
    · unfold get_tempo_day
      rw [hfind]
  · intro hex
    obtain ⟨p, hmem, hdate, hcond⟩ := hex
    have : (cacheLookup cache ds now limit).isSome := by
      apply List.find?_isSome.mpr
      refine ⟨p, hmem, ?_⟩
      simp only [Bool.or_eq_true, Bool.and_eq_true, beq_iff_eq,
        decide_eq_true_eq]
      refine ⟨hdate, ?_⟩
      rcases hcond with h | h | h | h
      · exact Or.inl (Or.inl (Or.inl h))
      · exact Or.inl (Or.inl (Or.inr h))
      · exact Or.inl (Or.inr h)
      · exact Or.inr h
    exact Option.isSome_iff_exists.mp this
  · intro hlim hall
    have hnone : cacheLookup cache ds now limit = none := by
      apply List.find?_eq_none.mpr
      intro p hmem
      intro hp
      simp only [Bool.or_eq_true, Bool.and_eq_true, beq_iff_eq,
        decide_eq_true_eq] at hp
      have h0 := hall p hmem hp.1
      rcases hp.2 with ((h | h) | h) | h
      · rw [h0] at h; cases h
      · rw [h0] at h; cases h
      · rw [h0] at h; cases h
      · omega
    refine ⟨hnone, ?_⟩
    intro r hr
    subst hr
    unfold get_tempo_day
    rw [hnone]

/-- Claim C5, witness: a cached unknown record for the date queried
before the cutoff is returned unchanged without fetching. -/
theorem tempo_cache_lookup_spec_witness :
    get_tempo_day [⟨some "2024-06-15", some 0⟩] "2024-06-15" 100 200 .clientErr
      = (⟨some "2024-06-15", some 0⟩, [⟨some "2024-06-15", some 0⟩]) :=
  ((tempo_cache_lookup_spec [⟨some "2024-06-15", some 0⟩] "2024-06-15"
      100 200 .clientErr).1 ⟨some "2024-06-15", some 0⟩ rfl).2.2.2

/-- Claim C6, counterexample. On a network error `get_tempo_day`
returns the synthesized unknown record but does not append it to the
cache: starting from the empty cache the returned cache is still empty,
so the resolved record was not cached before being returned as the
claim states. -/
theorem tempo_fetch_cache_counterexample :
    get_tempo_day [] "2024-06-15" 0 1 .clientErr
      = (⟨some "2024-06-15", some 0⟩, []) ∧
    (⟨some "2024-06-15", some 0⟩ : TempoRec) ∉ ([] : List TempoRec) :=
  ⟨rfl, by simp⟩

/-- Claim C6, amended: `get_tempo_day` never raises, it is total and on
any network or unexpected error returns a code 0 record for the
requested date; but only a record obtained from a completed fetch,
malformed responses synthesized to code 0 included, is appended to the
cache before being returned, while error-synthesized records are
returned without being cached. -/
theorem tempo_fetch_total_spec (cache : List TempoRec) (ds : String)
    (now limit : Nat) :
    (∀ fetch, ∃ rec newCache,
        get_tempo_day cache ds now limit fetch = (rec, newCache)) ∧
    (cacheLookup cache ds now limit = none →
        get_tempo_day cache ds now limit .clientErr
          = (⟨some ds, some 0⟩, cache) ∧
        get_tempo_day cache ds now limit .otherErr
          = (⟨some ds, some 0⟩, cache) ∧
        (∀ r, get_tempo_day cache ds now limit (.ok r)
          = (resolveResponse ds r, cache ++ [resolveResponse ds r]))) := by
  constructor
  · intro fetch
    exact ⟨_, _, rfl⟩
  · intro hnone
    refine ⟨?_, ?_, ?_⟩
    · unfold get_tempo_day; rw [hnone]
    · unfold get_tempo_day; rw [hnone]
    · intro r; unfold get_tempo_day; rw [hnone]

/-- Claim C6, witness: an unexpected error on an empty cache yields the
synthesized unknown record for the requested date. -/
theorem tempo_fetch_total_spec_witness :
    get_tempo_day [] "2024-06-15" 0 1 .otherErr
      = (⟨some "2024-06-15", some 0⟩, []) :=
  ((tempo_fetch_total_spec [] "2024-06-15" 0 1).2 rfl).2.1

/-- Claim C7: with a refresh due and a known contract type, a transport
or unexpected failure and a price parse failure each raise a cycle
failure while no field is written; a fetched table matching no row is
no error and returns the state unchanged; and every normally completed
refresh either leaves the whole state unchanged or installs the
non-empty rates of a matching row and stamps `last_refresh_at`, so
`last_refresh_at` moves only together with a successful match. -/
theorem table_refresh_atomic_spec (st : EngineState) (ctype power : String)
    (freshLimit now today : Nat) :
    (tarifNeedsUpdate st freshLimit = true →
      (ctype = "base" ∨ ctype = "hphc" ∨ ctype = "tempo") →
      (∃ e, refreshStep st ctype power freshLimit now today .transportErr
          = .error e) ∧
      (∃ e, refreshStep st ctype power freshLimit now today .unexpectedErr
          = .error e) ∧
      (∀ rows, parse_tariff_csv rows power ctype today = .error () →
        ∃ e, refreshStep st ctype power freshLimit now today (.ok rows)
          = .error e) ∧
      (∀ rows, parse_tariff_csv rows power ctype today = .ok none →
        refreshStep st ctype power freshLimit now today (.ok rows) = .ok st)) ∧
    (∀ fetch st', refreshStep st ctype power freshLimit now today fetch
        = .ok st' →
      st' = st ∨
      ∃ rows rates, fetch = .ok rows ∧ rates ≠ [] ∧
        parse_tariff_csv rows power ctype today = .ok (some rates) ∧
        st' = { st with rates := assocUpdate st.rates rates,
                        lastRefreshAt := some now }) := by
  constructor
  · intro hupd hknown
    have hvalid : (ctype ≠ "base" && ctype ≠ "hphc" && ctype ≠ "tempo") = false := by
      rcases hknown with h | h | h <;> simp [h]
    refine ⟨?_, ?_, ?_, ?_⟩
    · unfold refreshStep
      rw [hupd]
      simp only [Bool.not_true, Bool.false_eq_true, if_false]
      rw [if_neg (by simp only [hvalid]; exact Bool.false_ne_true)]
      exact ⟨_, rfl⟩
    · unfold refreshStep
      rw [hupd]
      simp only [Bool.not_true, Bool.false_eq_true, if_false]
      rw [if_neg (by simp only [hvalid]; exact Bool.false_ne_true)]
      exact ⟨_, rfl⟩
    · intro rows hparse
      unfold refreshStep
      rw [hupd]
      simp only [Bool.not_true, Bool.false_eq_true, if_false]
      rw [if_neg (by simp only [hvalid]; exact Bool.false_ne_true)]
      rw [hparse]
      exact ⟨_, rfl⟩
    · intro rows hparse
      unfold refreshStep
      rw [hupd]
      simp only [Bool.not_true, Bool.false_eq_true, if_false]
      rw [if_neg (by simp only [hvalid]; exact Bool.false_ne_true)]
      rw [hparse]
  · intro fetch st' h
    unfold refreshStep at h
    by_cases hupd : tarifNeedsUpdate st freshLimit = true
    · rw [hupd] at h
      simp only [Bool.not_true, Bool.false_eq_true, if_false] at h
      by_cases hvalid : (ctype ≠ "base" && ctype ≠ "hphc" && ctype ≠ "tempo") = true
      · rw [if_pos hvalid] at h
        cases h
      · rw [if_neg hvalid] at h
        cases fetch with
        | transportErr => cases h
        | unexpectedErr => cases h
        | ok rows =>
            simp only [] at h
            cases hparse : parse_tariff_csv rows power ctype today with
            | error e =>
                rw [hparse] at h
                simp at h
            | ok orates =>
                rw [hparse] at h
                cases orates with
                | none =>
                    simp only [] at h
                    cases h
                    exact Or.inl rfl
                | some rates =>
                    simp only [] at h
                    by_cases hrates : rates = []
                    · rw [if_pos hrates] at h
                      cases h
                      exact Or.inl rfl
                    · rw [if_neg hrates] at h
                      cases h
                      exact Or.inr ⟨rows, rates, rfl, hrates, hparse, rfl⟩
    · simp only [Bool.not_eq_true] at hupd
      rw [hupd] at h
      simp only [Bool.not_false, if_true] at h
      cases h
      exact Or.inl rfl

/-- Claim C7, witness: first cycle of a base contract; a transport
failure raises a cycle failure. -/
theorem table_refresh_atomic_spec_witness :
    ∃ e, refreshStep {} "base" "6" 0 0 0 .transportErr = .error e :=
  ((table_refresh_atomic_spec {} "base" "6" 0 0 0).1 rfl (Or.inl rfl)).1

/-- Claim C9, counterexample. A cycle whose contract type foo is none
of base, hphc, tempo but whose tariff table is still fresh completes
without any failure, returning the state unchanged: the unknown-type
check sits inside the refresh-due branch, so the raise does not happen
regardless of freshness as the claim states. -/
theorem unknown_contract_counterexample :
    update_data stFresh "foo" "6" 50 200 20240615 .transportErr
        0 0 0 "" "" "" .clientErr .clientErr .clientErr none
      = .ok stFresh ∧
    ("foo" ≠ "base" ∧ "foo" ≠ "hphc" ∧ "foo" ≠ "tempo") ∧
    tarifNeedsUpdate stFresh 50 = false :=
  ⟨rfl, by decide, rfl⟩

/-- Claim C9, amended: a cycle with an unknown contract type raises a
failure surfaced to the caller whenever a table refresh is due, in
particular on the first cycle where `last_refresh_at` is unset; when
the table is still fresh the cycle completes without failure, though
such a state is unreachable in practice because `last_refresh_at` is
only ever set by a successful refresh, which requires a known type. -/
theorem unknown_contract_spec (st : EngineState) (ctype power : String)
    (freshLimit now today : Nat) (tableFetch : TableFetch)
    (nowTime checkLimit dayStart : Nat) (todayStr yStr tmStr : String)
    (fy ft ftm : FetchRes) (ranges : Option String)
    (h1 : ctype ≠ "base") (h2 : ctype ≠ "hphc") (h3 : ctype ≠ "tempo")
    (hupd : tarifNeedsUpdate st freshLimit = true) :
    update_data st ctype power freshLimit now today tableFetch
        nowTime checkLimit dayStart todayStr yStr tmStr fy ft ftm ranges
      = .error ("Unknown contract type: " ++ ctype) := by
  have hrefresh : refreshStep st ctype power freshLimit now today tableFetch
      = .error ("Unknown contract type: " ++ ctype) := by
    unfold refreshStep
    rw [hupd]
    simp only [Bool.not_true, Bool.false_eq_true, if_false]
    rw [if_pos (by simp [h1, h2, h3])]
  unfold update_data
  rw [hrefresh]

/-- Claim C9, witness: the first cycle of a contract of unknown type
raises the unknown-contract failure. -/
theorem unknown_contract_spec_witness :
    update_data {} "foo" "6" 0 0 0 .transportErr 0 0 0 "" "" ""
        .clientErr .clientErr .clientErr none
      = .error ("Unknown contract type: " ++ "foo") :=
  unknown_contract_spec {} "foo" "6" 0 0 0 .transportErr 0 0 0 "" "" ""
    .clientErr .clientErr .clientErr none
    (by decide) (by decide) (by decide) rfl
